import Mathlib

/-!
# Verification of the greeting-bot core (`database.py`, `gigachat_module/`)

Shallow embedding of the repository's core components:

* the Roster Store's date matching, audience resolution and referral-code
  minting (`database.py`);
* the Content Pipeline's retry loop and Markdown→Telegram-HTML conversion
  (`gigachat_module/text_generator.py`);
* the Quality Gate (`gigachat_module/sincerity_evaluator.py`).

External effects (SQLite rows, `secrets` randomness, SHA-256 digests, the
GigaChat API, `json.loads`, the system clock) are modelled as explicit
parameters/oracles; all in-repository control flow and string processing is
translated directly from the source.
-/

/-! ## Python / SQLite string primitives

Semantics of the library routines the source calls, restricted to the
character repertoire this repository uses (ASCII + Russian Cyrillic). -/

/-- Membership test for a character in a character list (`c in s`). -/
def hasChar : List Char → Char → Bool
  | [], _ => false
  | c :: rest, t => if c = t then true else hasChar rest t

/-- `needle` occurs at the start of `haystack`. -/
def listStartsWith : List Char → List Char → Bool
  | _, [] => true
  | [], _ :: _ => false
  | c :: rest, d :: pat => if c = d then listStartsWith rest pat else false

/-- Python's `needle in haystack` substring test. -/
def containsSub : List Char → List Char → Bool
  | [], pat => pat.isEmpty
  | c :: rest, pat =>
    if listStartsWith (c :: rest) pat then true else containsSub rest pat

/-- Python `str.lower` on the repertoire used by this repository:
ASCII `A`-`Z` and Cyrillic `А`-`Я`, `Ё`. -/
def pyLowerChar (c : Char) : Char :=
  if 'A' ≤ c ∧ c ≤ 'Z' then Char.ofNat (c.toNat + 32)
  else if c.toNat ≥ 0x410 ∧ c.toNat ≤ 0x42F then Char.ofNat (c.toNat + 0x20)
  else if c.toNat = 0x401 then Char.ofNat 0x451
  else c

/-- Python `str.lower` over a whole string. -/
def pyLower (s : List Char) : List Char := s.map pyLowerChar

/-- SQLite's `LOWER`: folds ASCII letters only (no ICU extension loaded). -/
def sqlLowerChar (c : Char) : Char :=
  if 'A' ≤ c ∧ c ≤ 'Z' then Char.ofNat (c.toNat + 32) else c

/-- SQLite's `UPPER`: folds ASCII letters only. -/
def sqlUpperChar (c : Char) : Char :=
  if 'a' ≤ c ∧ c ≤ 'z' then Char.ofNat (c.toNat - 32) else c

/-- SQLite `LOWER` over a string. -/
def sqlLower (s : List Char) : List Char := s.map sqlLowerChar

/-- SQLite `UPPER` over a string. -/
def sqlUpper (s : List Char) : List Char := s.map sqlUpperChar

/-- SQLite `x LIKE '%pat%'` with the default ASCII-case-insensitive
collation: containment after folding ASCII case on both sides. -/
def sqlLikeContains (hay pat : List Char) : Bool :=
  containsSub (sqlUpper hay) (sqlUpper pat)

/-- Python `str.split(sep)` for a single-character separator. -/
def pySplitAux (sep : Char) : List Char → List Char → List (List Char)
  | [], acc => [acc.reverse]
  | c :: rest, acc =>
    if c = sep then acc.reverse :: pySplitAux sep rest []
    else pySplitAux sep rest (c :: acc)

/-- Python `str.split(sep)` (single-character separator). -/
def pySplit (s : List Char) (sep : Char) : List (List Char) :=
  pySplitAux sep s []

/-- Python `str.zfill(2)`: left-pad with `'0'` to width 2, keeping a
leading sign in place. -/
def zfill2 (s : List Char) : List Char :=
  match s with
  | [] => ['0', '0']
  | [c] => if c = '+' ∨ c = '-' then [c, '0'] else ['0', c]
  | _ => s

/-! ## Data model (`database.py` tables `users` and `holidays`)

Only the columns the modelled operations read are carried; nullable
columns are `Option String`. -/

/-- A row of the `users` table. -/
structure UserRow where
  name : String
  user_type : String
  gender : Option String
  interests : Option String
  birth_date : Option String
  telegram_chat_id : Option String
  deriving DecidableEq, Repr

/-- A row of the `holidays` table (`holiday_name` and `date_fixed` are
`NOT NULL`; `description` is nullable). -/
structure HolidayRow where
  holiday_name : String
  date_fixed : String
  description : Option String
  deriving DecidableEq, Repr

/-- `SUBSTR(s, start, 2)` of SQLite (1-indexed, character-based; shorter
than 2 near the end of the string). -/
def sqlSubstr2 (s : List Char) (start : Nat) : List Char :=
  (s.drop (start - 1)).take 2

/-! ## Date Matcher (`Database.get_users_by_birthday`,
`Database.get_holidays_by_date`, `database.py` lines 110–195) -/

/-- Outcome of normalising a query date string: a zero-padded
`(month, day)` pair, an empty result for a string with neither separator,
or a raised `IndexError` for a dashed string with fewer than 3 parts. -/
inductive DateNorm where
  | ok (month day : List Char)
  | noSeparator
  | indexError
  deriving DecidableEq, Repr

/-- Date normalisation of `get_users_by_birthday` (lines 120–132):
`day_month = date.split('.')[:2]` with `target_day = day_month[0]`,
`target_month = day_month[1]`, else the `YYYY-MM-DD` branch using
`parts[1]`/`parts[2]`, else an empty result. -/
def normBirthdayDate (date : List Char) : DateNorm :=
  if hasChar date '.' then
    match pySplit date '.' with
    | d :: m :: _ => .ok (zfill2 m) (zfill2 d)
    | _ => .indexError
  else if hasChar date '-' then
    match pySplit date '-' with
    | _ :: m :: d :: _ => .ok (zfill2 m) (zfill2 d)
    | _ => .indexError
  else .noSeparator

/-- Date normalisation of `get_holidays_by_date` (lines 162–174):
`parts = date.split('.')` with `target_day = parts[0]`,
`target_month = parts[1]`; the dashed branch is identical to
`normBirthdayDate`. -/
def normHolidayDate (date : List Char) : DateNorm :=
  if hasChar date '.' then
    match pySplit date '.' with
    | d :: m :: _ => .ok (zfill2 m) (zfill2 d)
    | _ => .indexError
  else if hasChar date '-' then
    match pySplit date '-' with
    | _ :: m :: d :: _ => .ok (zfill2 m) (zfill2 d)
    | _ => .indexError
  else .noSeparator

/-- The SQL row filter of `get_users_by_birthday` (lines 139–145):
`birth_date IS NOT NULL AND birth_date != '' AND SUBSTR(birth_date,6,2) = month
AND SUBSTR(birth_date,9,2) = day`. -/
def birthMatchesRow (birth_date : Option String) (month day : List Char) : Bool :=
  match birth_date with
  | none => false
  | some b =>
    ¬ b.toList.isEmpty ∧ sqlSubstr2 b.toList 6 = month ∧ sqlSubstr2 b.toList 9 = day

/-- The SQL row filter of `get_holidays_by_date` (lines 181–190):
`date_fixed` matches either as a 5-character `MM-DD` or a 10-character
`YYYY-MM-DD`. -/
def fixedMatchesRow (date_fixed : String) (month day : List Char) : Bool :=
  let df := date_fixed.toList
  ¬ df.isEmpty ∧
    ((df.length = 5 ∧ sqlSubstr2 df 1 = month ∧ sqlSubstr2 df 4 = day) ∨
     (df.length = 10 ∧ sqlSubstr2 df 6 = month ∧ sqlSubstr2 df 9 = day))

/-- `Database.get_users_by_birthday` over an explicit roster.
`none` models the uncaught `IndexError` of a dashed date with fewer than
three components. -/
def get_users_by_birthday (date : String) (users : List UserRow) :
    Option (List UserRow) :=
  match normBirthdayDate date.toList with
  | .ok m d => some (users.filter fun u => birthMatchesRow u.birth_date m d)
  | .noSeparator => some []
  | .indexError => none

/-- `Database.get_holidays_by_date` over an explicit holiday table. -/
def get_holidays_by_date (date : String) (holidays : List HolidayRow) :
    Option (List HolidayRow) :=
  match normHolidayDate date.toList with
  | .ok m d => some (holidays.filter fun h => fixedMatchesRow h.date_fixed m d)
  | .noSeparator => some []
  | .indexError => none

/-! ## Audience Resolver (`Database.get_users_for_holiday`, lines 197–253) -/

/-- The base SQL condition of every branch:
`telegram_chat_id IS NOT NULL AND telegram_chat_id != ''`. -/
def isActivated (u : UserRow) : Bool :=
  match u.telegram_chat_id with
  | none => false
  | some s => ¬ s.toList.isEmpty

/-- `LOWER(gender) = g` (NULL gender never matches). -/
def genderIs (u : UserRow) (g : List Char) : Bool :=
  match u.gender with
  | none => false
  | some s => sqlLower s.toList = g

/-- `LOWER(user_type) = t`. -/
def roleIs (u : UserRow) (t : List Char) : Bool :=
  sqlLower u.user_type.toList = t

/-- The interest filter of the IT branch (lines 235–244): NULL interests
never match; otherwise any of the four `LIKE` patterns. -/
def itInterests (u : UserRow) : Bool :=
  match u.interests with
  | none => false
  | some s =>
    sqlLikeContains (sqlUpper s.toList) "IT".toList ||
    sqlLikeContains (sqlLower s.toList) "кибербезопасность".toList ||
    sqlLikeContains (sqlLower s.toList) "технологии".toList ||
    sqlLikeContains (sqlLower s.toList) "гаджеты".toList

/-- `Database.get_users_for_holiday`: the first-match-wins keyword ladder
over the lowered description.  `none` models the `AttributeError` raised
by `None.lower()` when the `description` column is NULL. -/
def get_users_for_holiday (h : HolidayRow) (users : List UserRow) :
    Option (List UserRow) :=
  match h.description with
  | none => none
  | some d =>
    let description := pyLower d.toList
    let holiday_name := h.holiday_name.toList
    some (
      if containsSub description "для всех".toList then
        users.filter isActivated
      else if containsSub description "для мужчин".toList then
        users.filter fun u => isActivated u && genderIs u "male".toList
      else if containsSub description "для женщин".toList then
        users.filter fun u => isActivated u && genderIs u "female".toList
      else if containsSub description "для сотрудников".toList then
        users.filter fun u => isActivated u && roleIs u "employee".toList
      else if containsSub description "для клиентов".toList then
        users.filter fun u => isActivated u && roleIs u "client".toList
      else if containsSub (pyLower description) "it".toList ||
              containsSub (pyLower holiday_name) "кибербезопасности".toList then
        users.filter fun u => isActivated u && itInterests u
      else [])

/-! ## Code Minter (`Database.generate_unique_referral_code`, lines 375–450)

`secrets` randomness, SHA-256 digests and the clock are explicit inputs:
a digest is a 64-nibble hex string (`Fin 64 → Fin 16`), indexed per
attempt and per in-attempt re-hash; `secrets.choice(alphabet)` is an
oracle of alphabet members; the timestamp suffix and `secrets.token_hex(1)`
are input strings. -/

/-- Python `str.replace(c, '')`: delete every occurrence of `c`. -/
def pyRemoveChar (s : List Char) (c : Char) : List Char :=
  s.filter (fun x => x ≠ c)

/-- `string.ascii_letters`. -/
def ascii_letters : List Char :=
  "abcdefghijklmnopqrstuvwxyzABCDEFGHIJKLMNOPQRSTUVWXYZ".toList

/-- `string.digits`. -/
def string_digits : List Char := "0123456789".toList

/-- The minting alphabet (lines 390–392): letters, digits and `-_`, with
`0`, `O`, `o` and then `I`, `l` removed.  Note the digit `1` is NOT
removed. -/
def mintAlphabet : List Char :=
  pyRemoveChar (pyRemoveChar (pyRemoveChar (pyRemoveChar (pyRemoveChar
    (ascii_letters ++ string_digits ++ ['-', '_'])
    '0') 'O') 'o') 'I') 'l'

/-- One character-producing step state of the inner loop (lines 418–431):
remaining characters, `hash_index`, index of the current (re-)hash. -/
def mintCandidateGo (digest : Nat → Fin 64 → Fin 16) :
    Nat → Nat → Nat → List Char → List Char
  | 0, _, _, acc => acc.reverse
  | n + 1, hi, di, acc =>
    if h : hi ≥ 63 then
      -- hash exhausted: reset the index and re-hash (lines 420–425)
      let pair := 16 * (digest (di + 1) ⟨0, by omega⟩).val +
        (digest (di + 1) ⟨1, by omega⟩).val
      mintCandidateGo digest n 2 (di + 1)
        (mintAlphabet.getD (pair % mintAlphabet.length) 'a' :: acc)
    else
      let pair := 16 * (digest di ⟨hi, by omega⟩).val +
        (digest di ⟨hi + 1, by omega⟩).val
      mintCandidateGo digest n (hi + 2) di
        (mintAlphabet.getD (pair % mintAlphabet.length) 'a' :: acc)

/-- The candidate code built from one attempt's hash (lines 414–433). -/
def mintCandidate (digest : Nat → Fin 64 → Fin 16) (length : Nat) : String :=
  String.mk (mintCandidateGo digest length 0 0 [])

/-- The bounded attempt loop (lines 404–437): up to `fuel` attempts
starting at index `a`; an attempt's candidate is returned iff it is not
already in the store. -/
def mintAttempts (store : List String) (digests : Nat → Nat → Fin 64 → Fin 16)
    (length : Nat) : Nat → Nat → Option String
  | _, 0 => none
  | a, fuel + 1 =>
    let code := mintCandidate (digests a) length
    if code ∈ store then mintAttempts store digests length (a + 1) fuel
    else some code

/-- The random/clock environment of one minting call. -/
structure MintEnv where
  /-- per attempt, per re-hash: the SHA-256 hex digest. -/
  digests : Nat → Nat → Fin 64 → Fin 16
  /-- `secrets.choice(alphabet)` stream of the first fallback (line 442). -/
  choice1 : Nat → {c : Char // c ∈ mintAlphabet}
  /-- `secrets.choice(alphabet)` stream of the last resort (line 449). -/
  choice2 : Nat → {c : Char // c ∈ mintAlphabet}
  /-- `str(int(datetime.now().timestamp() * 1000000))[-6:]` (line 441). -/
  tsSuffix : String
  /-- `secrets.token_hex(1)` (line 449). -/
  tokenHex : String

/-- The first fallback code (lines 441–442): `length - 6` random alphabet
characters followed by the timestamp suffix. -/
def fallbackCode (env : MintEnv) (length : Nat) : String :=
  String.mk ((List.range (length - 6)).map fun i => (env.choice1 i).val) ++
    env.tsSuffix

/-- The last-resort code (line 449): `length - 8` random alphabet
characters, the timestamp suffix and two hex characters — returned with
no uniqueness check. -/
def lastResortCode (env : MintEnv) (length : Nat) : String :=
  String.mk ((List.range (length - 8)).map fun i => (env.choice2 i).val) ++
    env.tsSuffix ++ env.tokenHex

/-- `Database.generate_unique_referral_code` against an explicit store of
existing codes (`get_user_by_referral_code code is None` ↔
`code ∉ store`). -/
def generate_unique_referral_code (store : List String) (env : MintEnv)
    (length : Nat := 11) : String :=
  match mintAttempts store env.digests length 0 100 with
  | some code => code
  | none =>
    let code := fallbackCode env length
    if code ∈ store then lastResortCode env length else code

/-- `n` sequential minting calls, each inserting its code into the store
before the next call (the onboarding protocol of §2/§6 of the spec). -/
def mintCodes (env : Nat → MintEnv) (length : Nat) : Nat → List String
  | 0 => []
  | n + 1 =>
    mintCodes env length n ++
      [generate_unique_referral_code (mintCodes env length n) (env n) length]

/-! ## Markdown → Telegram HTML (`markdown_to_telegram_html`, lines 34–87)

Each `re.sub` pass is translated as a left-to-right scanner applying its
pattern's (deterministic) leftmost-match semantics; lookbehinds read the
character of the pass's input preceding the current position. -/

/-- Backtick character (U+0060). -/
def backtickChar : Char := Char.ofNat 96

/-- A match of `<[^>]+>` at the head of the list: the tag and the
remainder. -/
def tagAt : List Char → Option (List Char × List Char)
  | [] => none
  | c :: rest =>
    if c = '<' then
      let mid := rest.takeWhile (fun x => x ≠ '>')
      match rest.dropWhile (fun x => x ≠ '>') with
      | '>' :: after =>
        if mid.isEmpty then none else some ('<' :: (mid ++ ['>']), after)
      | _ => none
    else none

/-- `re.split(r'(<[^>]+>)', s)`: the parts list, delimiters included
(lines 52–62). -/
def splitTagsAux : Nat → List Char → List (List Char)
  | _, [] => [[]]
  | 0, s => [s]
  | fuel + 1, c :: rest =>
    match tagAt (c :: rest) with
    | some (tag, after) => [] :: tag :: splitTagsAux fuel after
    | none =>
      match splitTagsAux fuel rest with
      | p :: ps => (c :: p) :: ps
      | [] => [[c]]

/-- `part.replace(pat, rep)` for a single-character pattern. -/
def pyReplaceChar (c : Char) (rep : List Char) : List Char → List Char
  | [] => []
  | x :: rest =>
    (if x = c then rep else [x]) ++ pyReplaceChar c rep rest

/-- The escaping of a non-tag part (line 60):
`.replace("&","&amp;").replace("<","&lt;").replace(">","&gt;")`. -/
def escapeAmpLtGt (p : List Char) : List Char :=
  pyReplaceChar '>' "&gt;".toList
    (pyReplaceChar '<' "&lt;".toList
      (pyReplaceChar '&' "&amp;".toList p))

/-- `escape_html_safe` (lines 49–62): split on tag-shaped spans, keep any
part that starts with `<` and ends with `>` verbatim, escape the rest. -/
def escape_html_safe (s : List Char) : List Char :=
  ((splitTagsAux s.length s).map fun p =>
    if p.head? = some '<' ∧ p.getLast? = some '>' then p
    else escapeAmpLtGt p).flatten

/-- One left-to-right `re.sub` pass: `m prev s` reports, at the current
position, the replacement, the last character of the consumed original
text (for lookbehinds of later positions) and the remainder. -/
def reSubScan
    (m : Option Char → List Char → Option (List Char × Option Char × List Char)) :
    Nat → Option Char → List Char → List Char
  | 0, _, s => s
  | _ + 1, _, [] => []
  | fuel + 1, prev, c :: rest =>
    match m prev (c :: rest) with
    | some (rep, p, remainder) => rep ++ reSubScan m fuel p remainder
    | none => c :: reSubScan m fuel (some c) rest

/-- Matcher of `\[([^\]]+?)\]\(([^\)]+?)\)` →
`<a href="\2">\1</a>` (line 70). -/
def linkMatch (_ : Option Char) (s : List Char) :
    Option (List Char × Option Char × List Char) :=
  match s with
  | '[' :: r =>
    let txt := r.takeWhile (fun c => c ≠ ']')
    match r.dropWhile (fun c => c ≠ ']') with
    | ']' :: '(' :: r2 =>
      let url := r2.takeWhile (fun c => c ≠ ')')
      match r2.dropWhile (fun c => c ≠ ')') with
      | ')' :: rest =>
        if txt.isEmpty ∨ url.isEmpty then none
        else some ("<a href=\"".toList ++ url ++ "\">".toList ++ txt ++
          "</a>".toList, some ')', rest)
      | _ => none
    | _ => none
  | _ => none

/-- Scan for the earliest double delimiter `d d` closing a lazy `(.+?)`
body; the accumulated body may not contain a newline. -/
def scanClose2 (d : Char) : List Char → List Char →
    Option (List Char × List Char)
  | acc, b :: c :: t =>
    if b = d ∧ c = d then some (acc.reverse, t)
    else if b = '\n' then none
    else scanClose2 d (b :: acc) (c :: t)
  | _, _ => none

/-- Matcher of a double-delimiter span `dd(.+?)dd` (bold `**`/`__`,
strikethrough `~~`; lines 73–74 and 85). -/
def pairMatch (d : Char) (openT closeT : List Char) (_ : Option Char)
    (s : List Char) : Option (List Char × Option Char × List Char) :=
  match s with
  | a :: b :: r =>
    if a = d ∧ b = d then
      match r with
      | [] => none
      | x :: r2 =>
        if x = '\n' then none
        else
          match scanClose2 d [x] r2 with
          | some (content, rest) =>
            some (openT ++ content ++ closeT, some d, rest)
          | none => none
    else none
  | _ => none

/-- Matcher of a single-delimiter italic span with lookbehind/lookahead,
`(?<!d)d([^d\n]+?)d(?!d)` (lines 78–79). -/
def singleDelimMatch (d : Char) (openT closeT : List Char)
    (prev : Option Char) (s : List Char) :
    Option (List Char × Option Char × List Char) :=
  match s with
  | [] => none
  | a :: r =>
    if a = d ∧ prev ≠ some d then
      let content := r.takeWhile (fun c => c ≠ d ∧ c ≠ '\n')
      match r.dropWhile (fun c => c ≠ d ∧ c ≠ '\n') with
      | b :: rest =>
        if b = d ∧ ¬ content.isEmpty ∧ rest.head? ≠ some d then
          some (openT ++ content ++ closeT, some d, rest)
        else none
      | [] => none
    else none

/-- Matcher of a code span `` d([^d]+?)d `` with `d` the backtick
(line 82). -/
def codeMatch (_ : Option Char) (s : List Char) :
    Option (List Char × Option Char × List Char) :=
  match s with
  | [] => none
  | a :: r =>
    if a = backtickChar then
      let content := r.takeWhile (fun c => c ≠ backtickChar)
      match r.dropWhile (fun c => c ≠ backtickChar) with
      | b :: rest =>
        if b = backtickChar ∧ ¬ content.isEmpty then
          some ("<code>".toList ++ content ++ "</code>".toList,
            some backtickChar, rest)
        else none
      | [] => none
    else none

/-- The link pass (line 70). -/
def subLinks (s : List Char) : List Char := reSubScan linkMatch s.length none s

/-- The `**bold**` pass (line 73). -/
def subBoldStars (s : List Char) : List Char :=
  reSubScan (pairMatch '*' "<b>".toList "</b>".toList) s.length none s

/-- The `__bold__` pass (line 74). -/
def subBoldUnders (s : List Char) : List Char :=
  reSubScan (pairMatch '_' "<b>".toList "</b>".toList) s.length none s

/-- The `*italic*` pass (line 78). -/
def subItalicStars (s : List Char) : List Char :=
  reSubScan (singleDelimMatch '*' "<i>".toList "</i>".toList) s.length none s

/-- The `_italic_` pass (line 79). -/
def subItalicUnders (s : List Char) : List Char :=
  reSubScan (singleDelimMatch '_' "<i>".toList "</i>".toList) s.length none s

/-- The code-span pass (line 82). -/
def subCode (s : List Char) : List Char := reSubScan codeMatch s.length none s

/-- The `~~strikethrough~~` pass (line 85). -/
def subStrike (s : List Char) : List Char :=
  reSubScan (pairMatch '~' "<s>".toList "</s>".toList) s.length none s

/-- `markdown_to_telegram_html` (lines 34–87): escape, then links, bold
(double star / double underscore), italic (single star / single
underscore), code spans, strikethrough. -/
def markdown_to_telegram_html (text : String) : String :=
  if text = "" then text
  else
    String.mk (subStrike (subCode (subItalicUnders (subItalicStars
      (subBoldUnders (subBoldStars (subLinks
        (escape_html_safe text.toList))))))))

/-! ## Quality Gate (`sincerity_evaluator.py`)

The GigaChat chat call and the `re`/`json.loads` extraction applied to
its free-text response are external effects: each evaluation attempt's
observable outcome is an oracle value.  The in-repository control flow
(attempt loop, defaults, normalisation) is translated from the source. -/

/-- Python `str.strip()` (whitespace trim at both ends). -/
def pyStrip (s : String) : String :=
  String.mk (((s.toList.dropWhile Char.isWhitespace).reverse.dropWhile
    Char.isWhitespace).reverse)

/-- The four scores of one evaluation as the Content Pipeline's gate
oracle reports them (§3 `QualityScore`); the evaluator itself returns
the float-valued `EvalFloatScores` below. -/
structure EvalScores where
  sincerity_score : ℚ
  warmth_score : ℚ
  personalization_score : ℚ
  authenticity_score : ℚ
  deriving DecidableEq, Repr

/-- A Python `float` as `json.loads` and `float()` produce it: a finite
double (every finite double is a rational and its comparisons with the
literals `0.0`/`1.0` are exact, so `ℚ` carries the finite case
faithfully), `nan` (a bare `NaN` in the JSON, which `json.loads`
accepts by default, or `float("nan")`), or `±inf`. -/
inductive PyFloat where
  | finite (q : ℚ)
  | nan
  | posInf
  | negInf
  deriving DecidableEq, Repr

/-- IEEE-754 `<` on Python floats: every comparison involving `nan` is
false. -/
def pyLt : PyFloat → PyFloat → Bool
  | .finite a, .finite b => decide (a < b)
  | .nan, _ => false
  | _, .nan => false
  | .negInf, .negInf => false
  | .negInf, _ => true
  | _, .negInf => false
  | .posInf, .posInf => false
  | .finite _, .posInf => true
  | .posInf, _ => false

/-- A JSON field value as seen by `float(score)` in `_normalize_score`:
a number (possibly `NaN` or `±Infinity`), a string `float()` accepts
(which can also denote `nan`/`inf`), a non-numeric string
(`ValueError`), or a value of non-convertible type (`TypeError`). -/
inductive JsonVal where
  | num (x : PyFloat)
  | strNum (x : PyFloat)
  | strBad
  | other
  deriving DecidableEq, Repr

/-- `SincerityEvaluator._normalize_score` (lines 206–217): convert with
`float`; `score_float < 0.0` returns `0.0`, `score_float > 1.0` returns
`1.0`, otherwise the value is returned unchanged — for `nan` both
comparisons are false, so `nan` passes through unclamped; conversion
failure yields `0.5`. -/
def _normalize_score (v : JsonVal) : PyFloat :=
  match v with
  | .num x | .strNum x =>
    if pyLt x (.finite 0) then .finite 0
    else if pyLt (.finite 1) x then .finite 1
    else x
  | .strBad | .other => .finite (1/2)

/-- `result.get(key, 0.5)` followed by `_normalize_score` (lines 164–169). -/
def fieldScore (fields : String → Option JsonVal) (key : String) : PyFloat :=
  _normalize_score ((fields key).getD (.num (.finite (1/2))))

/-- The four float-valued scores the evaluator returns. -/
structure EvalFloatScores where
  sincerity_score : PyFloat
  warmth_score : PyFloat
  personalization_score : PyFloat
  authenticity_score : PyFloat
  deriving DecidableEq, Repr

/-- `SincerityEvaluator._default_scores` (lines 219–226). -/
def _default_scores_float : EvalFloatScores :=
  ⟨.finite (1/2), .finite (1/2), .finite (1/2), .finite (1/2)⟩

/-- The neutral scores of lines 219–226 rendered in the rational score
interface through which the Content Pipeline model observes its quality
gate (see the Content Pipeline section below). -/
def _default_scores : EvalScores := ⟨1/2, 1/2, 1/2, 1/2⟩

/-- Observable outcome of one evaluation attempt: an exception raised by
the chat call (rate-limit or other), a response without choices, an empty
content, or a content whose JSON extraction either fails to decode or
yields a field map. -/
inductive EvalOutcome where
  | exnRateLimit
  | exnOther
  | noChoices
  | emptyContent
  | decodeError
  | okFields (fields : String → Option JsonVal)

/-- The attempt loop of `SincerityEvaluator.evaluate` (lines 125–204),
`max_retries = 5`, i.e. 6 attempts; recursion over the remaining
attempts. -/
def evaluateGo (oracle : Nat → EvalOutcome) : Nat → Nat → EvalFloatScores
  | _, 0 => _default_scores_float   -- line 204 (after the loop)
  | attempt, fuel + 1 =>
    match oracle attempt with
    | .okFields fields =>
      { sincerity_score := fieldScore fields "sincerity_score"
        warmth_score := fieldScore fields "warmth_score"
        personalization_score := fieldScore fields "personalization_score"
        authenticity_score := fieldScore fields "authenticity_score" }
    | .decodeError => _default_scores_float  -- lines 172–176: returned at once
    | .noChoices | .emptyContent =>
      if attempt ≥ 5 then _default_scores_float
      else evaluateGo oracle (attempt + 1) fuel
    | .exnRateLimit | .exnOther =>
      if attempt ≥ 5 then _default_scores_float   -- lines 187–189
      else evaluateGo oracle (attempt + 1) fuel

/-- `SincerityEvaluator.evaluate` (lines 65–204): all-zero scores for an
empty text, otherwise the attempt loop. -/
def SincerityEvaluator_evaluate (text : String) (oracle : Nat → EvalOutcome) :
    EvalFloatScores :=
  if (pyStrip text).toList.isEmpty then ⟨.finite 0, .finite 0, .finite 0, .finite 0⟩
  else evaluateGo oracle 0 6

/-- The weighted composite of `is_sincere_enough` (lines 252–257):
`0.4·sincerity + 0.2·warmth + 0.2·personalization + 0.2·authenticity`. -/
def composite_score (s : EvalScores) : ℚ :=
  s.sincerity_score * (2/5) + s.warmth_score * (1/5) +
    s.personalization_score * (1/5) + s.authenticity_score * (1/5)

/-! ## Content Pipeline (`GigaChatTextGenerator.generate`, lines 335–486)

The chat call is an oracle indexed by the number of API calls made; the
quality gate's two evaluations per attempt (line 401 and, inside
`is_sincere_enough`, line 412/247) are an oracle indexed by the number of
evaluation calls made.  The deterministic signature post-processing
(lines 354–380) is an opaque parameter `postProcess`, since no verified
claim constrains it. -/

/-- Observable outcome of one `self.api.client.chat(...)` call: an
exception classified as rate-limiting by `_is_rate_limit_error`, any
other exception, or a successful response with the extracted content (a
response without choices behaves exactly as an empty content: both raise
a non-429 exception after the counter reset of line 346). -/
inductive ChatOutcome where
  | errRateLimit
  | errOther
  | ok (content : String)

/-- How a `generate` call terminates. -/
inductive GenOutcome where
  | success (text : String)
  | rateLimitExhausted   -- raise at line 455
  | generationError      -- raise at line 470
  | noTextError          -- raise at line 486
  deriving DecidableEq, Repr

/-- The trace of one `generate` call: outcome, number of chat API calls
made, and the sleeps performed (in seconds). -/
structure GenTrace where
  outcome : GenOutcome
  apiCalls : Nat
  sleeps : List ℚ
  deriving DecidableEq, Repr

/-- `_get_retry_delay` (lines 28–31); Python's binary `min` written as
its comparison. -/
def _get_retry_delay (attempt : Nat) (base_delay : ℚ := 5)
    (max_delay : ℚ := 120) : ℚ :=
  if base_delay * 2 ^ attempt ≤ max_delay then base_delay * 2 ^ attempt
  else max_delay

/-- The retry loop of `generate` (lines 335–476): recursion over the
remaining iterations of `for attempt in range(max_retries + 1)`.  State:
`attempt`, `rate_limit_retries`, `best_text`/`best_scores`, chat calls
made, evaluation calls made, sleeps so far.  Note that the `continue` of
the 429 branch (line 466) moves the `for` loop to its next value, so
`attempt` advances there as well, despite the comment at line 465. -/
def generateGo (postProcess : String → String) (chat : Nat → ChatOutcome)
    (evalO : Nat → EvalScores) (evaluate_sincerity : Bool)
    (min_sincerity : ℚ) (max_retries : Nat) :
    Nat → Nat → Nat → Option (String × EvalScores) → Nat → Nat → List ℚ →
    GenTrace
  | 0, _, _, best, calls, _, sleeps =>
    -- the for loop is exhausted: lines 478–486
    match best with
    | some (t, _) => ⟨.success (pyStrip (markdown_to_telegram_html t)), calls, sleeps⟩
    | none => ⟨.noTextError, calls, sleeps⟩
  | n + 1, attempt, rl, best, calls, ec, sleeps =>
    match chat calls with
    | .errRateLimit =>
      let rl' := rl + 1
      if rl' > 5 then ⟨.rateLimitExhausted, calls + 1, sleeps⟩
      else
        generateGo postProcess chat evalO evaluate_sincerity min_sincerity
          max_retries n (attempt + 1) rl' best (calls + 1) ec
          (sleeps ++ [_get_retry_delay (rl' - 1)])
    | .errOther =>
      if attempt ≥ max_retries then ⟨.generationError, calls + 1, sleeps⟩
      else
        generateGo postProcess chat evalO evaluate_sincerity min_sincerity
          max_retries n (attempt + 1) rl best (calls + 1) ec (sleeps ++ [1])
    | .ok content =>
      -- successful chat call: rate_limit_retries reset (line 346)
      if (pyStrip content).toList.isEmpty then
        -- "пустой ответ" raised at line 446, caught as a non-429 error
        if attempt ≥ max_retries then ⟨.generationError, calls + 1, sleeps⟩
        else
          generateGo postProcess chat evalO evaluate_sincerity min_sincerity
            max_retries n (attempt + 1) 0 best (calls + 1) ec (sleeps ++ [1])
      else
        let greeting := postProcess (pyStrip content)
        if evaluate_sincerity then
          let scores := evalO ec          -- evaluator.evaluate (line 401)
          let best' :=
            match best with
            | none => some (greeting, scores)
            | some (bt, bs) =>
              if scores.sincerity_score > bs.sincerity_score then
                some (greeting, scores)
              else some (bt, bs)
          -- is_sincere_enough evaluates the text again (lines 412, 247)
          let is_sincere := composite_score (evalO (ec + 1)) ≥ min_sincerity
          if is_sincere ∨ attempt ≥ max_retries then
            match best' with
            | some (t, _) =>
              ⟨.success (pyStrip (markdown_to_telegram_html t)), calls + 1, sleeps⟩
            | none => ⟨.noTextError, calls + 1, sleeps⟩
          else
            generateGo postProcess chat evalO evaluate_sincerity min_sincerity
              max_retries n (attempt + 1) 0 best' (calls + 1) (ec + 2) sleeps
        else
          ⟨.success (pyStrip (markdown_to_telegram_html greeting)), calls + 1,
            sleeps⟩

/-- `GigaChatTextGenerator.generate` from the start of the retry loop
(the prompt construction of lines 216–325 only shapes the chat request,
which the chat oracle abstracts). -/
def GigaChatTextGenerator_generate (postProcess : String → String)
    (chat : Nat → ChatOutcome) (evalO : Nat → EvalScores)
    (evaluate_sincerity : Bool) (min_sincerity : ℚ := 3/5)
    (max_retries : Nat := 2) : GenTrace :=
  generateGo postProcess chat evalO evaluate_sincerity min_sincerity
    max_retries (max_retries + 1) 0 0 none 0 0 []

/-! ## Helper lemmas -/

theorem hasChar_iff_mem {l : List Char} {c : Char} :
    hasChar l c = true ↔ c ∈ l := by
  induction l with
  | nil => simp [hasChar]
  | cons x rest ih =>
    by_cases h : x = c
    · simp [hasChar, h]
    · simp only [hasChar, if_neg h, ih, List.mem_cons]
      constructor
      · exact Or.inr
      · rintro (h' | h')
        · exact absurd h'.symm h
        · exact h'

theorem getD_mem_of_default_mem {l : List Char} {n : Nat} {d : Char}
    (hd : d ∈ l) : l.getD n d ∈ l := by
  have hg : l.getD n d = (l.get? n).getD d := by simp [List.getD]
  rcases h : l.get? n with _ | c
  · rw [hg, h]; exact hd
  · rw [hg, h]; exact List.get?_mem h

theorem substr2_concat_mid {a b c : List Char} (ha : a.length = 4)
    (hb : b.length = 2) :
    sqlSubstr2 (a ++ '-' :: (b ++ '-' :: c)) 6 = b := by
  simp only [sqlSubstr2]
  rw [List.drop_append_eq_append_drop, List.drop_eq_nil_of_le (by omega), ha]
  simp only [List.nil_append, List.drop_succ_cons, List.drop_zero]
  rw [List.take_append_eq_append_take, List.take_of_length_le (by omega), hb]
  simp

theorem substr2_concat_last {a b c : List Char} (ha : a.length = 4)
    (hb : b.length = 2) (hc : c.length = 2) :
    sqlSubstr2 (a ++ '-' :: (b ++ '-' :: c)) 9 = c := by
  simp only [sqlSubstr2]
  rw [List.drop_append_eq_append_drop, List.drop_eq_nil_of_le (by omega), ha]
  simp only [List.nil_append, List.drop_succ_cons]
  rw [List.drop_append_eq_append_drop, List.drop_eq_nil_of_le (by omega), hb]
  simp only [List.nil_append, List.drop_succ_cons, List.drop_zero,
    List.drop_eq_nil_of_le (by omega : c.length ≤ 2 + 1 + 2 - 4 - 1 - 2 + 1 + 1)]
  rw [List.take_of_length_le (by omega)]

/-! ## Claim C8: matching never compares the year -/

/-- Claim C8: birthday and holiday matching never compare the year
component.  For every 4-character year string `y`, a `birth_date` stored
as `y-M-D` matches the query pair `(M, D)`, and a holiday `date_fixed`
matches both as `M-D` and as `y-M-D` for any year `y`. -/
theorem year_never_compared (y m d : String) (hy : y.length = 4)
    (hm : m.length = 2) (hd : d.length = 2) :
    birthMatchesRow (some (y ++ "-" ++ m ++ "-" ++ d)) m.toList d.toList = true ∧
    fixedMatchesRow (m ++ "-" ++ d) m.toList d.toList = true ∧
    fixedMatchesRow (y ++ "-" ++ m ++ "-" ++ d) m.toList d.toList = true := by
  have hy' : y.toList.length = 4 := hy
  have hm' : m.toList.length = 2 := hm
  have hd' : d.toList.length = 2 := hd
  have hlist : (y ++ "-" ++ m ++ "-" ++ d).toList =
      y.toList ++ '-' :: (m.toList ++ '-' :: d.toList) := by
    simp [String.toList]
  have hlist2 : (m ++ "-" ++ d).toList = m.toList ++ '-' :: d.toList := by
    simp [String.toList]
  refine ⟨?_, ?_, ?_⟩
  · simp only [birthMatchesRow, hlist, decide_eq_true_eq]
    refine ⟨?_, substr2_concat_mid hy' hm', substr2_concat_last hy' hm' hd'⟩
    simp only [List.isEmpty_iff]
    intro hcon
    have := congrArg List.length hcon
    simp [hy', hm', hd'] at this
  · simp only [fixedMatchesRow, hlist2, decide_eq_true_eq]
    refine ⟨?_, Or.inl ⟨?_, ?_, ?_⟩⟩
    · simp only [List.isEmpty_iff]
      intro hcon
      have := congrArg List.length hcon
      simp [hm', hd'] at this
    · simp [hm, hd]
    · simp only [sqlSubstr2, Nat.sub_self, List.drop_zero]
      rw [List.take_append_eq_append_take, List.take_of_length_le (by omega), hm']
      simp
    · simp only [sqlSubstr2]
      rw [List.drop_append_eq_append_drop, List.drop_eq_nil_of_le (by omega), hm']
      simp only [List.nil_append, List.drop_succ_cons, List.drop_zero]
      rw [List.take_of_length_le (by omega)]
  · simp only [fixedMatchesRow, hlist, decide_eq_true_eq]
    refine ⟨?_, Or.inr ⟨?_, substr2_concat_mid hy' hm',
      substr2_concat_last hy' hm' hd'⟩⟩
    · simp only [List.isEmpty_iff]
      intro hcon
      have := congrArg List.length hcon
      simp [hy', hm', hd'] at this
    · simp [hy, hm, hd]

/-- Claim C8 witness: concrete years 1990 and 2005 both match the query
pair `(03, 08)`, and a holiday date stored either way matches. -/
theorem year_never_compared_witness :
    (birthMatchesRow (some ("1990" ++ "-" ++ "03" ++ "-" ++ "08")) "03".toList "08".toList = true ∧
     fixedMatchesRow ("03" ++ "-" ++ "08") "03".toList "08".toList = true ∧
     fixedMatchesRow ("1990" ++ "-" ++ "03" ++ "-" ++ "08") "03".toList "08".toList = true) ∧
    (birthMatchesRow (some ("2005" ++ "-" ++ "03" ++ "-" ++ "08")) "03".toList "08".toList = true ∧
     fixedMatchesRow ("03" ++ "-" ++ "08") "03".toList "08".toList = true ∧
     fixedMatchesRow ("2005" ++ "-" ++ "03" ++ "-" ++ "08") "03".toList "08".toList = true) :=
  ⟨year_never_compared "1990" "03" "08" (by decide) (by decide) (by decide),
   year_never_compared "2005" "03" "08" (by decide) (by decide) (by decide)⟩

/-! ## Claim C6: every resolved recipient has a bound messaging identity -/

/-- Claim C6: for every holiday and every roster, every user in the
recipient set returned by `get_users_for_holiday` has a non-null,
non-empty `telegram_chat_id`; a user without one never appears, under any
audience rule. -/
theorem recipients_are_activated (h : HolidayRow) (users : List UserRow)
    (l : List UserRow) (u : UserRow)
    (hres : get_users_for_holiday h users = some l) (hu : u ∈ l) :
    ∃ s, u.telegram_chat_id = some s ∧ s ≠ "" := by
  have hact : isActivated u = true := by
    rcases hdesc : h.description with _ | d
    · rw [get_users_for_holiday, hdesc] at hres
      exact absurd hres (by simp)
    · rw [get_users_for_holiday, hdesc] at hres
      simp only [Option.some.injEq] at hres
      subst hres
      split_ifs at hu with h1 h2 h3 h4 h5 h6
      · exact (List.mem_filter.mp hu).2
      · exact (Bool.and_elim_left (List.mem_filter.mp hu).2)
      · exact (Bool.and_elim_left (List.mem_filter.mp hu).2)
      · exact (Bool.and_elim_left (List.mem_filter.mp hu).2)
      · exact (Bool.and_elim_left (List.mem_filter.mp hu).2)
      · exact (Bool.and_elim_left (List.mem_filter.mp hu).2)
      · exact absurd hu (List.not_mem_nil u)
  rcases hc : u.telegram_chat_id with _ | s
  · rw [isActivated, hc] at hact
    exact absurd hact (by simp)
  · refine ⟨s, rfl, ?_⟩
    rw [isActivated, hc] at hact
    intro hcon
    subst hcon
    simp at hact

/-- Claim C6 witness: a concrete holiday and roster where the recipient
set is non-empty and its member's `telegram_chat_id` is bound. -/
theorem recipients_are_activated_witness :
    get_users_for_holiday ⟨"x", "03-08", some "Праздник для всех"⟩
      [⟨"a", "client", some "male", none, none, some "42"⟩]
      = some [⟨"a", "client", some "male", none, none, some "42"⟩] ∧
    ∃ s, (UserRow.mk "a" "client" (some "male") none none
      (some "42")).telegram_chat_id = some s ∧ s ≠ "" :=
  ⟨by decide,
   recipients_are_activated ⟨"x", "03-08", some "Праздник для всех"⟩
     [⟨"a", "client", some "male", none, none, some "42"⟩]
     [⟨"a", "client", some "male", none, none, some "42"⟩]
     ⟨"a", "client", some "male", none, none, some "42"⟩
     (by decide) (by decide)⟩

/-! ## Claim C10: no matching rule resolves to the empty recipient set -/

/-- Claim C10: when a holiday's description matches none of the audience
markers, contains no "it" substring after lowering, and the holiday name
does not contain the cybersecurity marker, `get_users_for_holiday`
returns the empty recipient set (the empty-set variant of the spec's open
question, not the default-to-everyone variant). -/
theorem no_rule_matches_empty (h : HolidayRow) (users : List UserRow)
    (d : String) (hdesc : h.description = some d)
    (h1 : containsSub (pyLower d.toList) "для всех".toList = false)
    (h2 : containsSub (pyLower d.toList) "для мужчин".toList = false)
    (h3 : containsSub (pyLower d.toList) "для женщин".toList = false)
    (h4 : containsSub (pyLower d.toList) "для сотрудников".toList = false)
    (h5 : containsSub (pyLower d.toList) "для клиентов".toList = false)
    (h6 : containsSub (pyLower (pyLower d.toList)) "it".toList = false)
    (h7 : containsSub (pyLower h.holiday_name.toList)
      "кибербезопасности".toList = false) :
    get_users_for_holiday h users = some [] := by
  have g1 : containsSub (pyLower d.toList) "для всех".toList ≠ true := by
    rw [h1]; exact Bool.false_ne_true
  have g2 : containsSub (pyLower d.toList) "для мужчин".toList ≠ true := by
    rw [h2]; exact Bool.false_ne_true
  have g3 : containsSub (pyLower d.toList) "для женщин".toList ≠ true := by
    rw [h3]; exact Bool.false_ne_true
  have g4 : containsSub (pyLower d.toList) "для сотрудников".toList ≠ true := by
    rw [h4]; exact Bool.false_ne_true
  have g5 : containsSub (pyLower d.toList) "для клиентов".toList ≠ true := by
    rw [h5]; exact Bool.false_ne_true
  have g6 : ¬ ((containsSub (pyLower (pyLower d.toList)) "it".toList ||
      containsSub (pyLower h.holiday_name.toList)
        "кибербезопасности".toList) = true) := by
    rw [h6, h7]; simp
  simp only [get_users_for_holiday, hdesc]
  rw [if_neg g1, if_neg g2, if_neg g3, if_neg g4, if_neg g5, if_neg g6]

/-- Claim C10 witness: a holiday matching no rule yields the empty set on
a non-empty roster of activated users. -/
theorem no_rule_matches_empty_witness :
    get_users_for_holiday ⟨"Новый год", "01-01", some "просто праздник"⟩
      [⟨"a", "client", some "male", some "спорт", none, some "42"⟩] = some [] :=
  no_rule_matches_empty ⟨"Новый год", "01-01", some "просто праздник"⟩
    [⟨"a", "client", some "male", some "спорт", none, some "42"⟩]
    "просто праздник" rfl (by decide) (by decide) (by decide) (by decide)
    (by decide) (by decide) (by decide)

/-! ## Claim C2: rate-limit backoff and the quality-attempt budget

The delay before the k-th rate-limit retry is `min(5·2^k, 120)` seconds
as claimed.  But the `continue` of the 429 branch is inside
`for attempt in range(max_retries + 1)`, so — contrary to the comment at
line 465 ("continue the loop without increasing attempt") and to the
claim — a rate-limit retry DOES consume a quality-retry attempt: with
`max_retries = 2`, three consecutive 429 faults exhaust the quality loop
after only 3 rate-limit retries (sleeps 5, 10, 20) and raise the generic
"no text" fault of line 486, never reaching the separate ceiling of 5.
With a large `max_retries` the separate ceiling is visible: 5 sleeps
(5, 10, 20, 40, 80) and then the 429 fault of line 455. -/

/-- Claim C2: the delay formula holds, but a rate-limit retry consumes a
quality attempt: under `max_retries = 2` an all-429 upstream makes only
3 calls and fails with the generic exhaustion error, not the 429 error,
after sleeps 5, 10, 20; the separate ceiling of 5 binds only when
`max_retries` is large. -/
theorem rate_limit_retry_consumes_attempt :
    (∀ k : Nat, _get_retry_delay k = min ((5 : ℚ) * 2 ^ k) 120) ∧
    GigaChatTextGenerator_generate id (fun _ => .errRateLimit)
      (fun _ => _default_scores) false (3/5) 2 =
      ⟨.noTextError, 3, [5, 10, 20]⟩ ∧
    GigaChatTextGenerator_generate id (fun _ => .errRateLimit)
      (fun _ => _default_scores) false (3/5) 9 =
      ⟨.rateLimitExhausted, 6, [5, 10, 20, 40, 80]⟩ :=
  ⟨fun k => (min_def ((5 : ℚ) * 2 ^ k) 120).symm,
   by norm_num [GigaChatTextGenerator_generate, generateGo, _get_retry_delay],
   by norm_num [GigaChatTextGenerator_generate, generateGo, _get_retry_delay]⟩

/-! ## Claim C4: quality-gate attempt counts and best-attempt selection -/

/-- Claim C4: with sincerity evaluation enabled and `min_sincerity = 0.6`
(and the default `max_retries = 2`), if the quality gate always yields
weighted composite `0.9` then exactly one generation attempt is made and
its text is returned; if it always yields composite `0.3` then exactly
3 attempts are made (initial + 2 retries) and the returned text is an
attempt whose tracked `sincerity_score` (the score the code compares at
line 407) is maximal among the three, though none clears the
threshold. -/
theorem quality_gate_retry_counts (post : String → String)
    (texts : Nat → String) (eHi eLo : Nat → EvalScores)
    (hne : ∀ k, (pyStrip (texts k)).toList.isEmpty = false)
    (hHi : ∀ n, composite_score (eHi n) = 9/10)
    (hLo : ∀ n, composite_score (eLo n) = 3/10) :
    ((GigaChatTextGenerator_generate post (fun k => .ok (texts k)) eHi
        true (3/5) 2).apiCalls = 1 ∧
     (GigaChatTextGenerator_generate post (fun k => .ok (texts k)) eHi
        true (3/5) 2).outcome =
       .success (pyStrip (markdown_to_telegram_html (post (pyStrip (texts 0)))))) ∧
    ((GigaChatTextGenerator_generate post (fun k => .ok (texts k)) eLo
        true (3/5) 2).apiCalls = 3 ∧
     ∃ j, j < 3 ∧
       (GigaChatTextGenerator_generate post (fun k => .ok (texts k)) eLo
          true (3/5) 2).outcome =
         .success (pyStrip (markdown_to_telegram_html (post (pyStrip (texts j))))) ∧
       ∀ k, k < 3 →
         (eLo (2 * k)).sincerity_score ≤ (eLo (2 * j)).sincerity_score) := by
  have hne' : ∀ k, (pyStrip (texts k)).data ≠ [] := by
    intro k hcon
    have h := hne k
    rw [show (pyStrip (texts k)).toList = (pyStrip (texts k)).data from rfl,
      hcon] at h
    simp at h
  constructor
  · have htrace : GigaChatTextGenerator_generate post (fun k => .ok (texts k))
        eHi true (3/5) 2 =
        ⟨.success (pyStrip (markdown_to_telegram_html (post (pyStrip (texts 0))))),
          1, []⟩ := by
      norm_num [GigaChatTextGenerator_generate, generateGo, hne 0, hne' 0,
        hne' 1, hne' 2, hHi 1]
    rw [htrace]
    exact ⟨rfl, rfl⟩
  · rcases le_or_lt (eLo 2).sincerity_score (eLo 0).sincerity_score with h1 | h1
    · rcases le_or_lt (eLo 4).sincerity_score (eLo 0).sincerity_score with h2 | h2
      · -- the first attempt stays best
        have h1' : ¬ ((eLo 2).sincerity_score > (eLo 0).sincerity_score) :=
          not_lt.mpr h1
        have h2' : ¬ ((eLo 4).sincerity_score > (eLo 0).sincerity_score) :=
          not_lt.mpr h2
        have htrace : GigaChatTextGenerator_generate post
            (fun k => .ok (texts k)) eLo true (3/5) 2 =
            ⟨.success (pyStrip (markdown_to_telegram_html (post (pyStrip (texts 0))))),
              3, []⟩ := by
          norm_num [GigaChatTextGenerator_generate, generateGo, hne' 0, hne' 1,
            hne' 2, hLo 1, hLo 3, hLo 5, h1', h2']
        rw [htrace]
        refine ⟨rfl, 0, by norm_num, rfl, ?_⟩
        intro k hk
        interval_cases k
        · exact le_refl _
        · exact h1
        · exact h2
      · -- the third attempt wins over the first (which beat the second)
        have h1' : ¬ ((eLo 2).sincerity_score > (eLo 0).sincerity_score) :=
          not_lt.mpr h1
        have htrace : GigaChatTextGenerator_generate post
            (fun k => .ok (texts k)) eLo true (3/5) 2 =
            ⟨.success (pyStrip (markdown_to_telegram_html (post (pyStrip (texts 2))))),
              3, []⟩ := by
          norm_num [GigaChatTextGenerator_generate, generateGo, hne' 0, hne' 1,
            hne' 2, hLo 1, hLo 3, hLo 5, h1', h2]
        rw [htrace]
        refine ⟨rfl, 2, by norm_num, rfl, ?_⟩
        intro k hk
        interval_cases k
        · exact le_of_lt h2
        · exact le_trans h1 (le_of_lt h2)
        · exact le_refl _
    · rcases le_or_lt (eLo 4).sincerity_score (eLo 2).sincerity_score with h2 | h2
      · -- the second attempt becomes and stays best
        have h2' : ¬ ((eLo 4).sincerity_score > (eLo 2).sincerity_score) :=
          not_lt.mpr h2
        have htrace : GigaChatTextGenerator_generate post
            (fun k => .ok (texts k)) eLo true (3/5) 2 =
            ⟨.success (pyStrip (markdown_to_telegram_html (post (pyStrip (texts 1))))),
              3, []⟩ := by
          norm_num [GigaChatTextGenerator_generate, generateGo, hne' 0, hne' 1,
            hne' 2, hLo 1, hLo 3, hLo 5, h1, h2']
        rw [htrace]
        refine ⟨rfl, 1, by norm_num, rfl, ?_⟩
        intro k hk
        interval_cases k
        · exact le_of_lt h1
        · exact le_refl _
        · exact h2
      · -- the third attempt wins over the second
        have htrace : GigaChatTextGenerator_generate post
            (fun k => .ok (texts k)) eLo true (3/5) 2 =
            ⟨.success (pyStrip (markdown_to_telegram_html (post (pyStrip (texts 2))))),
              3, []⟩ := by
          norm_num [GigaChatTextGenerator_generate, generateGo, hne' 0, hne' 1,
            hne' 2, hLo 1, hLo 3, hLo 5, h1, h2]
        rw [htrace]
        refine ⟨rfl, 2, by norm_num, rfl, ?_⟩
        intro k hk
        interval_cases k
        · exact le_of_lt (lt_trans h1 h2)
        · exact le_of_lt h2
        · exact le_refl _

/-- Claim C4 witness: concrete constant-score gates (composite 0.9 and
composite 0.3) on a constant successful upstream. -/
theorem quality_gate_retry_counts_witness :
    ((GigaChatTextGenerator_generate id (fun _ => .ok "x")
        (fun _ => ⟨9/10, 9/10, 9/10, 9/10⟩) true (3/5) 2).apiCalls = 1 ∧
     (GigaChatTextGenerator_generate id (fun _ => .ok "x")
        (fun _ => ⟨9/10, 9/10, 9/10, 9/10⟩) true (3/5) 2).outcome =
       .success (pyStrip (markdown_to_telegram_html (id (pyStrip "x"))))) ∧
    ((GigaChatTextGenerator_generate id (fun _ => .ok "x")
        (fun _ => ⟨3/10, 3/10, 3/10, 3/10⟩) true (3/5) 2).apiCalls = 3 ∧
     ∃ j, j < 3 ∧
       (GigaChatTextGenerator_generate id (fun _ => .ok "x")
          (fun _ => ⟨3/10, 3/10, 3/10, 3/10⟩) true (3/5) 2).outcome =
         .success (pyStrip (markdown_to_telegram_html (id (pyStrip "x")))) ∧
       ∀ k, k < 3 →
         ((fun (_ : Nat) => (⟨3/10, 3/10, 3/10, 3/10⟩ : EvalScores)) (2 * k)).sincerity_score ≤
         ((fun (_ : Nat) => (⟨3/10, 3/10, 3/10, 3/10⟩ : EvalScores)) (2 * j)).sincerity_score) :=
  quality_gate_retry_counts id (fun _ => "x")
    (fun _ => ⟨9/10, 9/10, 9/10, 9/10⟩) (fun _ => ⟨3/10, 3/10, 3/10, 3/10⟩)
    (fun _ => by show (pyStrip "x").toList.isEmpty = false; decide)
    (fun _ => by norm_num [composite_score])
    (fun _ => by norm_num [composite_score])

/-! ## Claim C9: the quality gate's clamp and the NaN escape

`json.loads` accepts a bare `NaN` token, the defensive extraction regex
matches a flat object containing it, and `_normalize_score`'s clamp
(`if score_float < 0.0 … elif score_float > 1.0 …`, lines 210–215)
returns `nan` unchanged because both comparisons are false for `nan` —
contradicting the function's own docstring ("Нормализует оценку в
диапазон 0.0-1.0") and `evaluate`'s documented `0.0–1.0` ranges.  So a
`NaN`-bearing provider response makes `evaluate` return a score outside
`[0,1]`.  Finite and `±Infinity` values are clamped correctly, missing
and unparseable fields default to `0.5`, and faults are still absorbed
rather than propagated. -/

/-- Claim C9 (demonstration of the failing input): both clamp
comparisons are false for `nan`, so `_normalize_score` returns `nan`
unchanged and `evaluate` on a `NaN`-bearing parsed response returns a
`sincerity_score` that is no value of `[0,1]` at all; the clamp does
work on finite and infinite out-of-range values, unparseable and missing
fields default to `0.5`, and an all-faulting upstream yields the neutral
scores instead of a raise. -/
theorem evaluate_nan_escapes_clamp :
    pyLt .nan (.finite 0) = false ∧
    pyLt (.finite 1) .nan = false ∧
    _normalize_score (.num .nan) = .nan ∧
    SincerityEvaluator_evaluate "hi"
      (fun _ => .okFields (fun k =>
        if k = "sincerity_score" then some (.num .nan)
        else some (.num (.finite 1)))) =
      ⟨.nan, .finite 1, .finite 1, .finite 1⟩ ∧
    (∀ q : ℚ, PyFloat.nan ≠ PyFloat.finite q) ∧
    _normalize_score (.num (.finite 2)) = .finite 1 ∧
    _normalize_score (.num (.finite (-1))) = .finite 0 ∧
    _normalize_score (.num .posInf) = .finite 1 ∧
    _normalize_score (.num .negInf) = .finite 0 ∧
    _normalize_score .strBad = .finite (1/2) ∧
    _normalize_score .other = .finite (1/2) ∧
    fieldScore (fun _ => none) "sincerity_score" = .finite (1/2) ∧
    SincerityEvaluator_evaluate "hi" (fun _ => .exnRateLimit) =
      _default_scores_float :=
  ⟨rfl, rfl, by decide, by decide, fun q h => PyFloat.noConfusion h,
   by decide, by decide, by decide, by decide, rfl, rfl,
   by norm_num [fieldScore, _normalize_score, pyLt], rfl⟩

/-! ## Claim C7: date-format invariance -/

theorem toList_mk (l : List Char) : (String.mk l).toList = l := rfl

theorem pySplitAux_no_sep (sep : Char) (l : List Char) :
    ∀ acc, sep ∉ l → pySplitAux sep l acc = [acc.reverse ++ l] := by
  induction l with
  | nil => intro acc _; simp [pySplitAux]
  | cons c rest ih =>
    intro acc h
    have hc : ¬ (c = sep) := by
      intro e
      exact h (e ▸ List.mem_cons_self c rest)
    rw [pySplitAux, if_neg hc, ih (c :: acc)
      (fun m => h (List.mem_cons_of_mem _ m))]
    simp

theorem pySplitAux_sep_append (sep : Char) (a : List Char) (b : List Char) :
    ∀ acc, sep ∉ a →
      pySplitAux sep (a ++ sep :: b) acc =
        (acc.reverse ++ a) :: pySplitAux sep b [] := by
  induction a with
  | nil => intro acc _; simp [pySplitAux]
  | cons c rest ih =>
    intro acc h
    have hc : ¬ (c = sep) := by
      intro e
      exact h (e ▸ List.mem_cons_self c rest)
    rw [List.cons_append, pySplitAux, if_neg hc, ih (c :: acc)
      (fun m => h (List.mem_cons_of_mem _ m))]
    simp

theorem normHolidayDate_eq_normBirthdayDate :
    normHolidayDate = normBirthdayDate := rfl

/-- Claim C7: a "day.month[.year]" string and a "year-month-day" string
denoting the same calendar day (their day tokens, and month tokens,
zero-pad to the same two characters) normalise to the same zero-padded
`(month, day)` pair, so `get_users_by_birthday` and
`get_holidays_by_date` return the same result set for both strings
against any fixed store. -/
theorem date_format_invariance (s1 s2 td tm y2 tm2 td2 : String)
    (dtail : List Char) (users : List UserRow) (holidays : List HolidayRow)
    (hs1 : s1.toList = td.toList ++ '.' :: (tm.toList ++ dtail))
    (hs2 : s2.toList = y2.toList ++ '-' :: (tm2.toList ++ '-' :: td2.toList))
    (h_td : '.' ∉ td.toList) (h_tm : '.' ∉ tm.toList)
    (hdtail : dtail = [] ∨ ∃ r, dtail = '.' :: r)
    (hy_dot : '.' ∉ y2.toList) (hm_dot : '.' ∉ tm2.toList)
    (hd_dot : '.' ∉ td2.toList)
    (hy_dash : '-' ∉ y2.toList) (hm_dash : '-' ∉ tm2.toList)
    (hd_dash : '-' ∉ td2.toList)
    (hsame_m : zfill2 tm.toList = zfill2 tm2.toList)
    (hsame_d : zfill2 td.toList = zfill2 td2.toList) :
    normBirthdayDate s1.toList = .ok (zfill2 tm.toList) (zfill2 td.toList) ∧
    normBirthdayDate s2.toList = .ok (zfill2 tm.toList) (zfill2 td.toList) ∧
    get_users_by_birthday s1 users = get_users_by_birthday s2 users ∧
    get_holidays_by_date s1 holidays = get_holidays_by_date s2 holidays := by
  have e1 : normBirthdayDate s1.toList =
      .ok (zfill2 tm.toList) (zfill2 td.toList) := by
    rw [hs1]
    have hdot : hasChar (td.toList ++ '.' :: (tm.toList ++ dtail)) '.' = true :=
      hasChar_iff_mem.mpr (by simp)
    have hsplit : pySplit (td.toList ++ '.' :: (tm.toList ++ dtail)) '.' =
        td.toList :: pySplitAux '.' (tm.toList ++ dtail) [] := by
      rw [pySplit, pySplitAux_sep_append '.' td.toList (tm.toList ++ dtail) [] h_td]
      simp
    rcases hdtail with rfl | ⟨r, rfl⟩
    · rw [normBirthdayDate, if_pos hdot, hsplit]
      rw [List.append_nil, pySplitAux_no_sep '.' tm.toList [] h_tm]
      simp
    · rw [normBirthdayDate, if_pos hdot, hsplit]
      rw [pySplitAux_sep_append '.' tm.toList r [] h_tm]
      simp
  have e2 : normBirthdayDate s2.toList =
      .ok (zfill2 tm.toList) (zfill2 td.toList) := by
    rw [hs2]
    have hdot : ¬ (hasChar (y2.toList ++ '-' :: (tm2.toList ++ '-' :: td2.toList)) '.' = true) := by
      rw [hasChar_iff_mem]
      simp only [List.mem_append, List.mem_cons]
      rintro (h | h | h)
      · exact hy_dot h
      · exact absurd h (by decide)
      · rcases h with h | h | h
        · exact hm_dot h
        · exact absurd h (by decide)
        · exact hd_dot h
    have hdash : hasChar (y2.toList ++ '-' :: (tm2.toList ++ '-' :: td2.toList)) '-' = true :=
      hasChar_iff_mem.mpr (by simp)
    have hsplit : pySplit (y2.toList ++ '-' :: (tm2.toList ++ '-' :: td2.toList)) '-' =
        y2.toList :: tm2.toList :: [td2.toList] := by
      rw [pySplit, pySplitAux_sep_append '-' y2.toList _ [] hy_dash]
      rw [pySplitAux_sep_append '-' tm2.toList td2.toList [] hm_dash]
      rw [pySplitAux_no_sep '-' td2.toList [] hd_dash]
      simp
    rw [normBirthdayDate, if_neg hdot, if_pos hdash, hsplit]
    rw [hsame_m, hsame_d]
  refine ⟨e1, e2, ?_, ?_⟩
  · rw [get_users_by_birthday, get_users_by_birthday, e1, e2]
  · rw [get_holidays_by_date, get_holidays_by_date,
      normHolidayDate_eq_normBirthdayDate, e1, e2]

/-- Claim C7 witness: `"8.3"` and `"1990-03-08"` denote 8 March and give
identical results on a concrete roster and holiday table. -/
theorem date_format_invariance_witness :
    normBirthdayDate ("8.3" : String).toList =
      .ok (zfill2 "3".toList) (zfill2 "8".toList) ∧
    normBirthdayDate ("1990-03-08" : String).toList =
      .ok (zfill2 "3".toList) (zfill2 "8".toList) ∧
    get_users_by_birthday "8.3"
        [⟨"a", "client", none, none, some "1985-03-08", some "1"⟩] =
      get_users_by_birthday "1990-03-08"
        [⟨"a", "client", none, none, some "1985-03-08", some "1"⟩] ∧
    get_holidays_by_date "8.3" [⟨"h", "03-08", some "для всех"⟩] =
      get_holidays_by_date "1990-03-08" [⟨"h", "03-08", some "для всех"⟩] :=
  date_format_invariance "8.3" "1990-03-08" "8" "3" "1990" "03" "08" []
    [⟨"a", "client", none, none, some "1985-03-08", some "1"⟩]
    [⟨"h", "03-08", some "для всех"⟩]
    (by decide) (by decide) (by decide) (by decide) (Or.inl rfl)
    (by decide) (by decide) (by decide) (by decide) (by decide) (by decide)
    (by decide) (by decide)

/-! ## Claims C1 and C3: the Code Minter -/

theorem mintCandidateGo_length (digest : Nat → Fin 64 → Fin 16) :
    ∀ n hi di acc, (mintCandidateGo digest n hi di acc).length = n + acc.length := by
  intro n
  induction n with
  | zero => intro hi di acc; simp [mintCandidateGo]
  | succ m ih =>
    intro hi di acc
    rw [mintCandidateGo]
    split
    · rw [ih]
      simp only [List.length_cons]
      omega
    · rw [ih]
      simp only [List.length_cons]
      omega

theorem mintCandidateGo_chars (digest : Nat → Fin 64 → Fin 16) :
    ∀ n hi di acc, (∀ c ∈ acc, c ∈ mintAlphabet) →
      ∀ c ∈ mintCandidateGo digest n hi di acc, c ∈ mintAlphabet := by
  intro n
  induction n with
  | zero =>
    intro hi di acc hacc c hc
    rw [mintCandidateGo] at hc
    exact hacc c (List.mem_reverse.mp hc)
  | succ m ih =>
    intro hi di acc hacc c hc
    rw [mintCandidateGo] at hc
    have hdef : ('a' : Char) ∈ mintAlphabet := by decide
    split at hc
    · refine ih _ _ _ ?_ c hc
      intro x hx
      rcases List.mem_cons.mp hx with rfl | hx
      · exact getD_mem_of_default_mem hdef
      · exact hacc x hx
    · refine ih _ _ _ ?_ c hc
      intro x hx
      rcases List.mem_cons.mp hx with rfl | hx
      · exact getD_mem_of_default_mem hdef
      · exact hacc x hx

theorem mintCandidate_length (digest : Nat → Fin 64 → Fin 16) (L : Nat) :
    (mintCandidate digest L).length = L := by
  show (mintCandidateGo digest L 0 0 []).length = L
  rw [mintCandidateGo_length]
  simp

theorem mintCandidate_chars (digest : Nat → Fin 64 → Fin 16) (L : Nat) :
    ∀ c ∈ (mintCandidate digest L).toList, c ∈ mintAlphabet := by
  intro c hc
  exact mintCandidateGo_chars digest L 0 0 [] (by simp) c hc

theorem mintAttempts_spec (store : List String)
    (digests : Nat → Nat → Fin 64 → Fin 16) (L : Nat) :
    ∀ fuel a c, mintAttempts store digests L a fuel = some c →
      c ∉ store ∧ ∃ k, c = mintCandidate (digests k) L := by
  intro fuel
  induction fuel with
  | zero => intro a c h; exact absurd h (by simp [mintAttempts])
  | succ n ih =>
    intro a c h
    rw [mintAttempts] at h
    split_ifs at h with hmem
    · exact ih (a + 1) c h
    · rw [Option.some_inj] at h
      exact ⟨h ▸ hmem, a, h.symm⟩

theorem generate_of_mainLoop (store : List String) (env : MintEnv) (L : Nat)
    (c : String) (h : mintAttempts store env.digests L 0 100 = some c) :
    generate_unique_referral_code store env L = c := by
  rw [generate_unique_referral_code, h]

theorem mintCodes_nodup_props (env : Nat → MintEnv) (N : Nat)
    (h : ∀ i, i < N →
      (mintAttempts (mintCodes env 11 i) (env i).digests 11 0 100).isSome = true) :
    (mintCodes env 11 N).Nodup ∧
    ∀ c ∈ mintCodes env 11 N, c.length = 11 ∧
      ∀ ch ∈ c.toList, ch ∈ mintAlphabet := by
  induction N with
  | zero => simp [mintCodes]
  | succ n ih =>
    obtain ⟨ihnodup, ihprops⟩ := ih (fun i hi => h i (Nat.lt_succ_of_lt hi))
    obtain ⟨c, hc⟩ := Option.isSome_iff_exists.mp (h n (Nat.lt_succ_self n))
    obtain ⟨hfresh, k, hck⟩ := mintAttempts_spec _ _ _ 100 0 c hc
    have hgen : mintCodes env 11 (n + 1) = mintCodes env 11 n ++ [c] := by
      rw [mintCodes, generate_of_mainLoop _ _ _ _ hc]
    rw [hgen]
    constructor
    · have hperm : (mintCodes env 11 n ++ [c]).Perm (c :: mintCodes env 11 n) :=
        List.perm_append_singleton c (mintCodes env 11 n)
      rw [hperm.nodup_iff]
      exact List.Nodup.cons hfresh ihnodup
    · intro c' hc'
      rcases List.mem_append.mp hc' with hmem | hmem
      · exact ihprops c' hmem
      · rw [List.mem_singleton.mp hmem, hck]
        exact ⟨mintCandidate_length _ _, mintCandidate_chars _ _⟩

/-- Claim C1 (amended): provided every one of the `N` sequential calls
(each minted code inserted into the store before the next call) returns
from the uniqueness-checked main hash loop — which holds whenever some
attempt's candidate avoids the codes minted so far — the `N` codes are
pairwise distinct, each of the default length 11, and composed only of
characters of the minting alphabet; that alphabet excludes `0`, `O`,
`o`, `I`, `l` but does contain the digit `1`. -/
theorem mint_sequence_distinct (env : Nat → MintEnv) (N : Nat)
    (h : ∀ i, i < N →
      (mintAttempts (mintCodes env 11 i) (env i).digests 11 0 100).isSome = true) :
    (mintCodes env 11 N).Nodup ∧
    (∀ c ∈ mintCodes env 11 N, c.length = 11 ∧
      ∀ ch ∈ c.toList, ch ∈ mintAlphabet) ∧
    ('1' ∈ mintAlphabet ∧ '0' ∉ mintAlphabet ∧ 'O' ∉ mintAlphabet ∧
     'o' ∉ mintAlphabet ∧ 'I' ∉ mintAlphabet ∧ 'l' ∉ mintAlphabet) :=
  ⟨(mintCodes_nodup_props env N h).1, (mintCodes_nodup_props env N h).2,
   by decide, by decide, by decide, by decide, by decide, by decide⟩

/-- A hash oracle whose hex digest is `"3030…"`: every byte-pair has value
`0x30 = 48`, the alphabet index of the digit `'1'`. -/
def digestOnes : Nat → Fin 64 → Fin 16 :=
  fun _ k => if k.val % 2 = 0 then 3 else 0

/-- A hash oracle whose hex digest is `"3131…"`: every byte-pair has value
`0x31 = 49`, the alphabet index of the digit `'2'`. -/
def digestTwos : Nat → Fin 64 → Fin 16 :=
  fun _ k => if k.val % 2 = 0 then 3 else 1

/-- A concrete minting environment built on `digestOnes`. -/
def envOnes : MintEnv :=
  ⟨fun _ => digestOnes, fun _ => ⟨'a', by decide⟩, fun _ => ⟨'a', by decide⟩,
   "123456", "ab"⟩

/-- A concrete minting environment built on `digestTwos`. -/
def envTwos : MintEnv :=
  ⟨fun _ => digestTwos, fun _ => ⟨'a', by decide⟩, fun _ => ⟨'a', by decide⟩,
   "654321", "cd"⟩

/-- The restricted alphabet as the spec's words describe it for claim C1:
letters, digits and `-_` excluding the visually ambiguous `0`, `O`, `o`,
`1`, `I`, `l` — i.e. the code's alphabet with `1` removed as well. -/
def specClaimedAlphabet : List Char := pyRemoveChar mintAlphabet '1'

/-- Claim C1 counterexample: against a store with zero codes, a single
mint call (default length 11) can return `"11111111111"` — a code made
of the digit `1`, which the claimed restricted alphabet excludes.  The
code's alphabet does not exclude `1`. -/
theorem mint_alphabet_counterexample :
    generate_unique_referral_code [] envOnes 11 = "11111111111" ∧
    '1' ∈ ("11111111111" : String).toList ∧
    '1' ∉ specClaimedAlphabet :=
  ⟨by decide, by decide, by decide⟩

/-- Claim C1 witness: two sequential mint calls with fresh hash oracles
return `"11111111111"` then `"22222222222"` — distinct, of length 11,
inside the minting alphabet. -/
theorem mint_sequence_distinct_witness :
    (mintCodes (fun i => if i = 0 then envOnes else envTwos) 11 2).Nodup ∧
    (∀ c ∈ mintCodes (fun i => if i = 0 then envOnes else envTwos) 11 2,
      c.length = 11 ∧ ∀ ch ∈ c.toList, ch ∈ mintAlphabet) ∧
    ('1' ∈ mintAlphabet ∧ '0' ∉ mintAlphabet ∧ 'O' ∉ mintAlphabet ∧
     'o' ∉ mintAlphabet ∧ 'I' ∉ mintAlphabet ∧ 'l' ∉ mintAlphabet) :=
  mint_sequence_distinct (fun i => if i = 0 then envOnes else envTwos) 2
    (by decide)

/-- Claim C3 (amended): only the last-resort code of line 449 can be a
duplicate: whenever `generate_unique_referral_code` returns a code that
is already in the store, that code is exactly the unchecked last-resort
code (alphabet characters + timestamp suffix + `token_hex(1)`); codes
returned from the main loop or from the checked first fallback are never
in the store. -/
theorem mint_duplicate_only_last_resort (store : List String) (env : MintEnv)
    (L : Nat)
    (hdup : generate_unique_referral_code store env L ∈ store) :
    generate_unique_referral_code store env L = lastResortCode env L := by
  rw [generate_unique_referral_code] at hdup ⊢
  rcases hm : mintAttempts store env.digests L 0 100 with _ | c'
  · simp only [hm] at hdup ⊢
    by_cases hf : fallbackCode env L ∈ store
    · rw [if_pos hf]
    · rw [if_neg hf] at hdup
      exact absurd hdup hf
  · simp only [hm] at hdup ⊢
    exact absurd hdup (mintAttempts_spec store env.digests L 100 0 c' hm).1

/-- Claim C3 counterexample: a store and oracle family under which every
one of the 100 attempts collides, the first fallback collides, and the
function then silently returns the last-resort code — which is itself a
member of the store.  A duplicate is returned with no raise and with no
uniqueness check of the returned code, refuting fail-closed behaviour. -/
theorem mint_fail_closed_counterexample :
    generate_unique_referral_code
      ["11111111111", "aaaaa123456", "aaa123456ab"] envOnes 11 =
      "aaa123456ab" ∧
    "aaa123456ab" ∈ ["11111111111", "aaaaa123456", "aaa123456ab"] :=
  ⟨by decide, by decide⟩

/-- Claim C3 witness: a concrete all-collision store on which the
returned (duplicate) code is exactly the last-resort code. -/
theorem mint_duplicate_only_last_resort_witness :
    generate_unique_referral_code
      ["22222222222", "aaaaa654321", "aaa654321cd"] envTwos 11 ∈
      ["22222222222", "aaaaa654321", "aaa654321cd"] ∧
    generate_unique_referral_code
      ["22222222222", "aaaaa654321", "aaa654321cd"] envTwos 11 =
      lastResortCode envTwos 11 :=
  ⟨by decide,
   mint_duplicate_only_last_resort
     ["22222222222", "aaaaa654321", "aaa654321cd"] envTwos 11 (by decide)⟩

/-! ## Claim C5: Markdown-conversion ordering and escaping -/

theorem splitTagsAux_no_lt (s : List Char) :
    ∀ fuel, '<' ∉ s → splitTagsAux fuel s = [s] := by
  induction s with
  | nil =>
    intro fuel _
    cases fuel <;> rfl
  | cons c rest ih =>
    intro fuel h
    cases fuel with
    | zero => rfl
    | succ n =>
      have hc : ¬ (c = '<') := fun e => h (e ▸ List.mem_cons_self c rest)
      rw [splitTagsAux, tagAt, if_neg hc,
        ih n (fun m => h (List.mem_cons_of_mem _ m))]

theorem escape_no_lt (s : List Char) (h : '<' ∉ s) :
    escape_html_safe s = escapeAmpLtGt s := by
  have hcond : ¬ (s.head? = some '<' ∧ s.getLast? = some '>') := by
    rintro ⟨h1, _⟩
    cases s with
    | nil => exact absurd h1 (by simp)
    | cons c rest =>
      simp only [List.head?_cons, Option.some_inj] at h1
      exact h (h1 ▸ List.mem_cons_self c rest)
  rw [escape_html_safe, splitTagsAux_no_lt s s.length h]
  simp only [List.map_cons, List.map_nil, if_neg hcond]
  simp

/-- Claim C5 (amended): the conversion applies, in order, escaping, then
links, bold (`**` then `__`), italic (single `*` then single `_`), code
spans, strikethrough — but the escaping pass leaves any substring already
shaped like an HTML tag (`<…>`) unescaped, and later passes may rewrite
the inside of spans created by earlier passes.  On any input containing
no `<` character, the pipeline coincides with full escaping of `&`, `<`,
`>` followed by the ordered transformation chain. -/
theorem markdown_pipeline_order (s : String) (h : '<' ∉ s.toList) :
    markdown_to_telegram_html s =
      String.mk (subStrike (subCode (subItalicUnders (subItalicStars
        (subBoldUnders (subBoldStars (subLinks (escapeAmpLtGt s.toList)))))))) := by
  by_cases hs : s = ""
  · subst hs
    decide
  · rw [markdown_to_telegram_html, if_neg hs, escape_no_lt s.toList h]

/-- Claim C5 counterexample: the conversion does not escape the literal
markup-significant text `<2>` (it is tag-shaped, so the escaping pass
keeps it verbatim, where the claimed behaviour would produce
`1&lt;2&gt;3`); and the italic pass re-processes the inside of the link
span produced by the earlier link pass, turning the href `a_b_c` into
`a<i>b</i>c`. -/
theorem markdown_escape_counterexample :
    markdown_to_telegram_html "1<2>3" = "1<2>3" ∧
    String.mk (subStrike (subCode (subItalicUnders (subItalicStars
      (subBoldUnders (subBoldStars (subLinks
        (escapeAmpLtGt ("1<2>3" : String).toList)))))))) = "1&lt;2&gt;3" ∧
    ("1<2>3" : String) ≠ "1&lt;2&gt;3" ∧
    markdown_to_telegram_html "[t](a_b_c)" = "<a href=\"a<i>b</i>c\">t</a>" :=
  ⟨by decide, by decide, by decide, by decide⟩

/-- Claim C5 witness: on a `<`-free input the pipeline equals full
escaping followed by the ordered chain. -/
theorem markdown_pipeline_order_witness :
    markdown_to_telegram_html "a&b *x*" =
      String.mk (subStrike (subCode (subItalicUnders (subItalicStars
        (subBoldUnders (subBoldStars (subLinks
          (escapeAmpLtGt ("a&b *x*" : String).toList)))))))) ∧
    markdown_to_telegram_html "a&b *x*" = "a&amp;b <i>x</i>" :=
  ⟨markdown_pipeline_order "a&b *x*" (by decide), by decide⟩
